import Mathlib

/-!
# Verification of the ascii-renderer rasterization core

Shallow embedding of `src/vector2.rs` and `src/main.rs`. The Rust code works
over `f32`; the embedding models the floating-point numbers by exact rationals
(`ℚ`), so every arithmetic identity below is an identity of the algorithm, not
of a particular rounding. Rust's `Vec<char>` buffer becomes `List Char`,
`String` becomes `List Char`, and `as usize` on a non-negative value becomes
`Int.floor` followed by `Int.toNat` (which also matches Rust's saturation of
negative values to zero).
-/

set_option autoImplicit false

namespace AsciiRenderer

/-- `Vector2<T>` from `src/vector2.rs`: an ordered pair. The Rust tuple fields
`.0` and `.1` are modelled by `fst` and `snd`. -/
structure Vector2 (α : Type) where
  fst : α
  snd : α
deriving DecidableEq, Repr

/-- Component-wise addition (`impl Add for Vector2<f32>`). -/
def Vector2.add (a b : Vector2 ℚ) : Vector2 ℚ :=
  ⟨a.fst + b.fst, a.snd + b.snd⟩

/-- Component-wise subtraction (`impl Sub for Vector2<f32>`). -/
def Vector2.sub (a b : Vector2 ℚ) : Vector2 ℚ :=
  ⟨a.fst - b.fst, a.snd - b.snd⟩

/-- Scalar multiplication (`impl Mul<f32> for Vector2<f32>`). -/
def Vector2.mul (a : Vector2 ℚ) (s : ℚ) : Vector2 ℚ :=
  ⟨a.fst * s, a.snd * s⟩

/-- `Vector2::ZERO`. -/
def Vector2.ZERO : Vector2 ℚ := ⟨0, 0⟩

/-- `Vector2::UP = Vector2(0.0, 1.0)`. -/
def Vector2.UP : Vector2 ℚ := ⟨0, 1⟩

/-- `Vector2::DOWN = Vector2(0.0, -1.0)`. -/
def Vector2.DOWN : Vector2 ℚ := ⟨0, -1⟩

/-- `Vector2::LEFT = Vector2(-1.0, 0.0)`. -/
def Vector2.LEFT : Vector2 ℚ := ⟨-1, 0⟩

/-- `Vector2::RIGHT = Vector2(1.0, 0.0)`. -/
def Vector2.RIGHT : Vector2 ℚ := ⟨1, 0⟩

/-- `struct Rect` from `src/main.rs`: world-space corner position, width and
height. -/
structure Rect where
  position : Vector2 ℚ
  width : ℚ
  height : ℚ
deriving DecidableEq, Repr

/-- `Rect::point_in_self`: half-open range test
`(position.0..max_x).contains(&point.0) && (position.1..max_y).contains(&point.1)`. -/
def Rect.point_in_self (self : Rect) (point : Vector2 ℚ) : Bool :=
  let max_x := self.position.fst + self.width
  let max_y := self.position.snd + self.height
  decide (self.position.fst ≤ point.fst ∧ point.fst < max_x) &&
    decide (self.position.snd ≤ point.snd ∧ point.snd < max_y)

/-- `Rect::bbox` returns a clone of the rectangle itself. -/
def Rect.bbox (self : Rect) : Rect := self

/-- `struct Circle` from `src/main.rs`: world-space center position and radius. -/
structure Circle where
  position : Vector2 ℚ
  radius : ℚ
deriving DecidableEq, Repr

/-- `Circle::point_in_self`: the source computes
`distance = sqrt(x_diff² + y_diff²)` and returns `distance <= radius`.
Over the reals, `Real.sqrt s ≤ r ↔ 0 ≤ r ∧ s ≤ r²` whenever `s ≥ 0`, so the
square root is eliminated exactly, keeping the test inside `ℚ`. -/
def Circle.point_in_self (self : Circle) (point : Vector2 ℚ) : Bool :=
  let x_diff := point.fst - self.position.fst
  let y_diff := point.snd - self.position.snd
  decide (0 ≤ self.radius ∧
    x_diff * x_diff + y_diff * y_diff ≤ self.radius * self.radius)

/-- `Circle::bbox`: a square of side `2 × radius` whose `position` field is the
circle's own `position` (the source clones `self.position` without any offset). -/
def Circle.bbox (self : Circle) : Rect :=
  { width := self.radius * 2
    height := self.radius * 2
    position := self.position }

/-- The `Drawable` trait has exactly two implementors, `Rect` and `Circle`;
dynamic dispatch over `&dyn Drawable` becomes a closed sum. -/
inductive Drawable where
  | rect (r : Rect)
  | circle (c : Circle)
deriving DecidableEq, Repr

/-- Dispatch of `Drawable::point_in_self`. -/
def Drawable.point_in_self : Drawable → Vector2 ℚ → Bool
  | .rect r, p => r.point_in_self p
  | .circle c, p => c.point_in_self p

/-- Dispatch of `Drawable::bbox`. -/
def Drawable.bbox : Drawable → Rect
  | .rect r => r.bbox
  | .circle c => c.bbox

/-- `struct RendererOptions`. -/
structure RendererOptions where
  viewport_width : Nat
  viewport_height : Nat
deriving DecidableEq, Repr

/-- `struct Renderer`. -/
structure Renderer where
  options : RendererOptions
  position : Vector2 ℚ
  buffer : List Char
  drawables : List Drawable
deriving DecidableEq, Repr

/-- `Renderer::new`: unconditionally returns a renderer whose buffer is
`vec![' '; viewport_width * viewport_height]`; the source has no error path. -/
def Renderer.new (options : RendererOptions) : Renderer :=
  { buffer := List.replicate (options.viewport_width * options.viewport_height) ' '
    position := Vector2.ZERO
    drawables := []
    options := options }

/-- `Renderer::bbox`: the camera's world rectangle — corner at the camera
position, size the viewport dimensions. -/
def Renderer.bbox (self : Renderer) : Rect :=
  { position := self.position
    width := (self.options.viewport_width : ℚ)
    height := (self.options.viewport_height : ℚ) }

/-- `Renderer::collides_with_rect`, comparison directions exactly as in the
source (`rect_top > self_bottom && self_top > rect_bottom` for the y-axis). -/
def Renderer.collides_with_rect (self : Renderer) (rect : Rect) : Bool :=
  let self_left := self.position.fst
  let self_right := self_left + (self.options.viewport_width : ℚ)
  let self_top := self.position.snd
  let self_bottom := self_top + (self.options.viewport_height : ℚ)
  let rect_left := rect.position.fst
  let rect_right := rect_left + rect.width
  let rect_top := rect.position.snd
  let rect_bottom := rect_top + rect.height
  decide (self_left < rect_right) && decide (rect_left < self_right) &&
    decide (rect_top > self_bottom) && decide (self_top > rect_bottom)

/-- `Renderer::walk`: `self.position += direction * distance`. -/
def Renderer.walk (self : Renderer) (direction : Vector2 ℚ) (distance : ℚ) : Renderer :=
  { self with position := self.position.add (direction.mul distance) }

/-- `Renderer::add_drawable`. -/
def Renderer.add_drawable (self : Renderer) (drawable : Drawable) : Renderer :=
  { self with drawables := self.drawables ++ [drawable] }

/-- `Renderer::local_pixels`: `(x, y)` for `x` in `0..viewport_width` (outer
loop) and `y` in `0..viewport_height` (inner loop), coordinates cast to `f32`. -/
def Renderer.local_pixels (self : Renderer) : List (Vector2 ℚ) :=
  ((List.range self.options.viewport_width).map fun (x : Nat) =>
    (List.range self.options.viewport_height).map fun (y : Nat) =>
      Vector2.mk (x : ℚ) (y : ℚ)).flatten

/-- `Renderer::global_position_of`: world coordinate of a local pixel —
`(position.0 + point.0, position.1 - point.1)`. -/
def Renderer.global_position_of (self : Renderer) (point : Vector2 ℚ) : Vector2 ℚ :=
  ⟨self.position.fst + point.fst, self.position.snd - point.snd⟩

/-- One row slice `buffer[i..i + width]` of `Renderer::lines`. -/
def lineSlice (buffer : List Char) (width i : Nat) : List Char :=
  (buffer.drop i).take width

/-- The `while i < total` loop of `Renderer::lines`, with an explicit iteration
bound. Each pass pushes `buffer[i..i+width]` and advances `i` by `width`; since
`total = width * height`, the loop runs exactly `height` times when
`width > 0`, and zero times when `width = 0` (then `total = 0`), so a fuel of
`height` is exact on every state reachable from `lines`. -/
def linesGo (buffer : List Char) (width total : Nat) : Nat → Nat → List (List Char)
  | 0, _ => []
  | fuel + 1, i =>
    if i < total then
      lineSlice buffer width i :: linesGo buffer width total fuel (i + width)
    else []

/-- `Renderer::lines`: chunks the buffer into rows of `viewport_width`
characters (strings modelled as `List Char`). -/
def Renderer.lines (self : Renderer) : List (List Char) :=
  linesGo self.buffer self.options.viewport_width
    (self.options.viewport_width * self.options.viewport_height)
    self.options.viewport_height 0

/-- Rust's `as usize` on a non-negative `f32` value: truncation. For the
non-negative rationals produced by `index_f32` this is the floor; for negative
values Rust saturates to `0`, matching `Int.toNat`. -/
def ratToUsize (q : ℚ) : Nat := (⌊q⌋).toNat

/-- `Renderer::index_f32`: `(point.0 + point.1 * viewport_width) as usize`. -/
def Renderer.index_f32 (self : Renderer) (point : Vector2 ℚ) : Nat :=
  ratToUsize (point.fst + point.snd * (self.options.viewport_width : ℚ))

/-- `Renderer::render`: clears the buffer to spaces, computes the culled shape
list `shapes_to_check` — which the source then never reads: the pixel loop
below iterates `self.drawables`, exactly as `main.rs` lines 199-208 do — and
writes `'#'` at the row-major index of every local pixel whose world position
lies in some drawable. -/
def Renderer.render (self : Renderer) : Renderer :=
  let cleared := self.buffer.map fun _ => ' '
  let shapes_to_check :=
    self.drawables.filter fun shape => self.collides_with_rect shape.bbox
  let buffer :=
    List.foldl (fun buf point =>
      List.foldl (fun buf shape =>
        let global_pos := self.global_position_of point
        if shape.point_in_self global_pos then
          buf.set (self.index_f32 point) '#'
        else buf) buf self.drawables)
      cleared self.local_pixels
  { self with buffer := buffer }

/-- The brute-force rasterizer of the specification: every shape of the scene
is tested against every local pixel, and a pixel is `'#'` exactly when some
shape contains its world position; no culling is computed. Written from the
spec's words for the culling-equivalence comparison. -/
def Renderer.render_brute (self : Renderer) : Renderer :=
  let cleared := self.buffer.map fun _ => ' '
  let buffer :=
    List.foldl (fun buf point =>
      if self.drawables.any (fun shape =>
          shape.point_in_self (self.global_position_of point)) then
        buf.set (self.index_f32 point) '#'
      else buf)
      cleared self.local_pixels
  { self with buffer := buffer }

/-- The standard axis-aligned overlap test, as the spec words it: two
rectangles overlap iff each one's minimum corner is strictly less than the
other's maximum corner on both axes. -/
def Rect.overlaps (a b : Rect) : Bool :=
  decide (a.position.fst < b.position.fst + b.width) &&
    decide (b.position.fst < a.position.fst + a.width) &&
    decide (a.position.snd < b.position.snd + b.height) &&
    decide (b.position.snd < a.position.snd + a.height)

/-- Unfolding of the rectangle containment test into its defining proposition. -/
lemma Rect.point_in_self_iff (R : Rect) (p : Vector2 ℚ) :
    R.point_in_self p = true ↔
      (R.position.fst ≤ p.fst ∧ p.fst < R.position.fst + R.width) ∧
      (R.position.snd ≤ p.snd ∧ p.snd < R.position.snd + R.height) := by
  simp [Rect.point_in_self, and_assoc]

/-- C1: for every camera position `(cx, cy)` and local pixel `(x, y)`,
`global_position_of` returns exactly `(cx + x, cy - y)`: the x component is
added and the y component subtracted (vertical flip). -/
theorem global_position_of_spec (opts : RendererOptions) (buf : List Char)
    (ds : List Drawable) (cx cy x y : ℚ) :
    (Renderer.mk opts ⟨cx, cy⟩ buf ds).global_position_of ⟨x, y⟩ = ⟨cx + x, cy - y⟩ :=
  rfl

/-- C3: `collides_with_rect` is not the overlap test. For the fresh renderer
with a 2×2 viewport (camera at the origin) and the unit square at the origin,
the camera rectangle and the shape overlap in the standard sense, yet
`collides_with_rect` returns `false` — its two y-axis comparisons are
inverted, making it unsatisfiable whenever both heights are positive. -/
theorem collides_with_rect_misses_overlap :
    Rect.overlaps (Renderer.new ⟨2, 2⟩).bbox ⟨⟨0, 0⟩, 1, 1⟩ = true ∧
    (Renderer.new ⟨2, 2⟩).collides_with_rect ⟨⟨0, 0⟩, 1, 1⟩ = false := by
  constructor <;>
    norm_num [Rect.overlaps, Renderer.collides_with_rect, Renderer.new,
      Renderer.bbox, Vector2.ZERO]

/-- C4 counterexample: constructing a renderer with `viewport_width = 0`
succeeds — `Renderer::new` has no failure path — and hands back a renderer
whose buffer is empty (degenerate), contradicting the claim that such a
construction fails with an `InvalidConfiguration` error. -/
theorem new_zero_width_degenerate :
    (Renderer.new ⟨0, 5⟩).buffer = [] := rfl

/-- C4 amended: `Renderer::new` is total: it never fails, and always returns a
renderer whose buffer is `viewport_width * viewport_height` background
characters — the empty buffer when either dimension is zero; no
`InvalidConfiguration` error exists in the code. -/
theorem new_never_fails (opts : RendererOptions) :
    (Renderer.new opts).buffer.length =
      opts.viewport_width * opts.viewport_height ∧
    ∀ c ∈ (Renderer.new opts).buffer, c = ' ' :=
  ⟨List.length_replicate _ _, fun _ hc => List.eq_of_mem_replicate hc⟩

/-- C5: `Circle::bbox` places the square's corner at the circle's center
instead of `center - (radius, radius)`. For the unit circle at the origin the
box is `[0, 2) × [0, 2)` with corner `(0, 0) ≠ (-1, -1)`, and the circle point
`(-1/2, -1/2)` lies inside the circle but outside its own bounding box. -/
theorem circle_bbox_not_centered :
    (Circle.mk ⟨0, 0⟩ 1).bbox = Rect.mk ⟨0, 0⟩ 2 2 ∧
    (Circle.mk ⟨0, 0⟩ 1).bbox.position ≠ (⟨-1, -1⟩ : Vector2 ℚ) ∧
    (Circle.mk ⟨0, 0⟩ 1).point_in_self ⟨-1/2, -1/2⟩ = true ∧
    Rect.point_in_self (Circle.mk ⟨0, 0⟩ 1).bbox ⟨-1/2, -1/2⟩ = false := by
  refine ⟨?_, ?_, ?_, ?_⟩ <;>
    norm_num [Circle.bbox, Circle.point_in_self, Rect.point_in_self,
      Vector2.mk.injEq]

/-- C6: rectangle containment is half-open: the minimum corner itself is
contained, while the three corners reached by adding the full width and/or
height are not. -/
theorem rect_point_in_self_half_open (R : Rect) (hw : 0 < R.width) (hh : 0 < R.height) :
    R.point_in_self R.position = true ∧
    R.point_in_self ⟨R.position.fst + R.width, R.position.snd⟩ = false ∧
    R.point_in_self ⟨R.position.fst, R.position.snd + R.height⟩ = false ∧
    R.point_in_self ⟨R.position.fst + R.width, R.position.snd + R.height⟩ = false := by
  refine ⟨?_, ?_, ?_, ?_⟩
  · exact (R.point_in_self_iff _).mpr ⟨⟨le_rfl, by linarith⟩, le_rfl, by linarith⟩
  · rw [Bool.eq_false_iff]
    intro h
    exact lt_irrefl _ ((R.point_in_self_iff _).mp h).1.2
  · rw [Bool.eq_false_iff]
    intro h
    exact lt_irrefl _ ((R.point_in_self_iff _).mp h).2.2
  · rw [Bool.eq_false_iff]
    intro h
    exact lt_irrefl _ ((R.point_in_self_iff _).mp h).1.2

/-- Witness for C6 at the unit square with corner `(0, 0)`. -/
theorem rect_point_in_self_half_open_witness :
    (Rect.mk ⟨0, 0⟩ 1 1).point_in_self ⟨0, 0⟩ = true ∧
    (Rect.mk ⟨0, 0⟩ 1 1).point_in_self ⟨0 + 1, 0⟩ = false ∧
    (Rect.mk ⟨0, 0⟩ 1 1).point_in_self ⟨0, 0 + 1⟩ = false ∧
    (Rect.mk ⟨0, 0⟩ 1 1).point_in_self ⟨0 + 1, 0 + 1⟩ = false :=
  rect_point_in_self_half_open (Rect.mk ⟨0, 0⟩ 1 1) (by decide) (by decide)

/-- A fold whose every step preserves the buffer length preserves it overall. -/
lemma length_foldl_eq {α : Type} (f : List Char → α → List Char)
    (h : ∀ b a, (f b a).length = b.length) (l : List α) :
    ∀ b : List Char, (List.foldl f b l).length = b.length := by
  induction l with
  | nil => intro b; rfl
  | cons a t ih =>
    intro b
    rw [List.foldl_cons, ih]
    exact h b a

/-- `render` never changes the length of the buffer: the clearing `map` and
every conditional `set` in the pixel loop are length-preserving. -/
lemma render_buffer_length (r : Renderer) :
    r.render.buffer.length = r.buffer.length := by
  simp only [Renderer.render]
  rw [length_foldl_eq]
  · simp
  · intro b p
    rw [length_foldl_eq]
    intro b' s
    dsimp only
    split <;> simp

/-- The buffer produced by `render` depends only on the camera position, the
viewport options, the scene, and the length of the previous buffer (which it
fully resets). -/
lemma render_buffer_pure (r₁ r₂ : Renderer)
    (hp : r₁.position = r₂.position) (ho : r₁.options = r₂.options)
    (hd : r₁.drawables = r₂.drawables) (hl : r₁.buffer.length = r₂.buffer.length) :
    r₁.render.buffer = r₂.render.buffer := by
  simp only [Renderer.render, Renderer.local_pixels, Renderer.global_position_of,
    Renderer.index_f32, List.map_const']
  rw [hl]
  simp only [hp, ho, hd]

/-- Folding the per-shape conditional writes over a shape list is the same as
one conditional write guarded by `any`: writing `'#'` twice at one index is
writing it once. -/
lemma foldl_set_eq_any {α : Type} (P : α → Bool) (i : Nat) (c : Char)
    (shapes : List α) :
    ∀ b : List Char,
      List.foldl (fun buf s => if P s then buf.set i c else buf) b shapes =
        if shapes.any P then b.set i c else b := by
  induction shapes with
  | nil => intro b; simp
  | cons s t ih =>
    intro b
    by_cases h : P s
    · simp [h, ih, List.set_set]
    · simp [h, ih]

/-- C2: the buffer produced by `render` — the variant that computes the
bounding-box culling list — is byte-identical to the buffer of the brute-force
rasterizer that tests every shape of the scene against every local pixel. (In
the source the culled list is computed and then never read, so the two pixel
loops coincide.) -/
theorem render_culling_equivalent (r : Renderer) :
    r.render.buffer = r.render_brute.buffer := by
  simp only [Renderer.render, Renderer.render_brute]
  congr 1
  funext buf point
  exact foldl_set_eq_any
    (fun shape => Drawable.point_in_self shape (r.global_position_of point))
    (r.index_f32 point) '#' r.drawables buf

/-- C7: rendering is idempotent — two consecutive `render` calls with no
intervening change yield byte-identical buffers — and the rendered buffer is a
pure function of camera position, viewport options, scene, and previous buffer
length (the buffer is reset, never incrementally patched). -/
theorem render_idempotent_pure (r r₁ r₂ : Renderer)
    (hp : r₁.position = r₂.position) (ho : r₁.options = r₂.options)
    (hd : r₁.drawables = r₂.drawables) (hl : r₁.buffer.length = r₂.buffer.length) :
    r.render.render.buffer = r.render.buffer ∧
    r₁.render.buffer = r₂.render.buffer :=
  ⟨render_buffer_pure r.render r rfl rfl rfl (render_buffer_length r),
   render_buffer_pure r₁ r₂ hp ho hd hl⟩

/-- Witness for C7: a fresh 1×2 renderer, and two 2×1 renderers that differ
only in their (same-length) current buffers. -/
theorem render_idempotent_pure_witness :
    (Renderer.new ⟨1, 2⟩).render.render.buffer = (Renderer.new ⟨1, 2⟩).render.buffer ∧
    (Renderer.mk ⟨2, 1⟩ ⟨0, 0⟩ [' ', ' '] []).render.buffer =
      (Renderer.mk ⟨2, 1⟩ ⟨0, 0⟩ ['a', 'b'] []).render.buffer :=
  render_idempotent_pure (Renderer.new ⟨1, 2⟩)
    (Renderer.mk ⟨2, 1⟩ ⟨0, 0⟩ [' ', ' '] [])
    (Renderer.mk ⟨2, 1⟩ ⟨0, 0⟩ ['a', 'b'] []) rfl rfl rfl rfl

/-- C8: walking `Up` by `d` and then `Down` by `d` restores the camera
position exactly. -/
theorem walk_up_down_roundtrip (r : Renderer) (d : ℚ) :
    ((r.walk Vector2.UP d).walk Vector2.DOWN d).position = r.position := by
  simp [Renderer.walk, Vector2.add, Vector2.mul, Vector2.UP, Vector2.DOWN]

/-- Closed form of the `lines` loop: starting at offset `i` with
`width * h` characters still to cover, it produces the `h` row slices at
offsets `i, i + width, …`. -/
lemma linesGo_eq (buffer : List Char) (w : Nat) (hw : 0 < w) :
    ∀ h i : Nat, linesGo buffer w (i + w * h) h i =
      (List.range h).map fun y => lineSlice buffer w (i + y * w) := by
  intro h
  induction h with
  | zero => intro i; simp [linesGo]
  | succ n ih =>
    intro i
    have hlt : i < i + w * (n + 1) := by
      have hpos : 0 < w * (n + 1) := Nat.mul_pos hw (Nat.succ_pos n)
      omega
    have htot : i + w * (n + 1) = (i + w) + w * n := by ring
    simp only [linesGo]
    rw [if_pos hlt, htot, ih (i + w), List.range_succ_eq_map, List.map_cons,
      List.map_map]
    congr 1
    · simp
    · congr 1
      funext y
      simp only [Function.comp_apply]
      congr 1
      rw [Nat.succ_mul]
      omega

/-- `lines` on a renderer with positive viewport width is the list of the
`viewport_height` row slices of the buffer. -/
lemma lines_eq (r : Renderer) (hw : 0 < r.options.viewport_width) :
    r.lines = (List.range r.options.viewport_height).map fun y =>
      lineSlice r.buffer r.options.viewport_width
        (y * r.options.viewport_width) := by
  have h := linesGo_eq r.buffer r.options.viewport_width hw
    r.options.viewport_height 0
  simpa [Renderer.lines] using h

/-- C9: `lines` partitions the buffer into `viewport_height` rows of
`viewport_width` characters in row order, and the character of row `y` at
column `x` is exactly `buffer[x + y * viewport_width]`. -/
theorem lines_partition (r : Renderer)
    (hw : 0 < r.options.viewport_width)
    (hlen : r.buffer.length =
      r.options.viewport_width * r.options.viewport_height) :
    r.lines.length = r.options.viewport_height ∧
    (∀ y, y < r.options.viewport_height →
      (r.lines.getD y []).length = r.options.viewport_width) ∧
    ∀ y x, y < r.options.viewport_height → x < r.options.viewport_width →
      (r.lines.getD y []).getD x ' ' =
        r.buffer.getD (x + y * r.options.viewport_width) ' ' := by
  set w := r.options.viewport_width with hw_def
  set h := r.options.viewport_height with hh_def
  have hrow : ∀ y, y < h → r.lines.getD y [] = lineSlice r.buffer w (y * w) := by
    intro y hy
    rw [lines_eq r hw]
    rw [List.getD, List.get?_eq_getElem?, List.getElem?_map, List.getElem?_range hy]
    rfl
  refine ⟨?_, ?_, ?_⟩
  · rw [lines_eq r hw]
    simp
  · intro y hy
    rw [hrow y hy]
    have hle : y * w + w ≤ w * h := by
      have h1 := Nat.mul_le_mul_right w (Nat.succ_le_of_lt hy)
      rw [Nat.succ_mul] at h1
      calc y * w + w ≤ h * w := h1
        _ = w * h := Nat.mul_comm h w
    simp only [lineSlice, List.length_take, List.length_drop, hlen]
    omega
  · intro y x hy hx
    rw [hrow y hy]
    simp only [lineSlice, List.getD, List.get?_eq_getElem?]
    rw [List.getElem?_take, if_pos hx, List.getElem?_drop]
    congr 2
    omega

/-- Witness for C9 on a fresh 2×2 renderer, read at row 1, column 1. -/
theorem lines_partition_witness :
    ((Renderer.new ⟨2, 2⟩).lines.getD 1 []).getD 1 ' ' =
      (Renderer.new ⟨2, 2⟩).buffer.getD (1 + 1 * 2) ' ' :=
  (lines_partition (Renderer.new ⟨2, 2⟩) (by decide) rfl).2.2 1 1
    (by decide) (by decide)

/-- The local pixels are exactly the integer grid points of
`[0, width) × [0, height)`, coordinates cast to `ℚ`. -/
lemma mem_local_pixels (r : Renderer) (p : Vector2 ℚ) :
    p ∈ r.local_pixels ↔ ∃ x y : Nat, x < r.options.viewport_width ∧
      y < r.options.viewport_height ∧ p = ⟨(x : ℚ), (y : ℚ)⟩ := by
  rw [Renderer.local_pixels, List.mem_flatten]
  constructor
  · rintro ⟨l, hl, hp⟩
    obtain ⟨x, hx, rfl⟩ := List.mem_map.mp hl
    obtain ⟨y, hy, rfl⟩ := List.mem_map.mp hp
    exact ⟨x, y, List.mem_range.mp hx, List.mem_range.mp hy, rfl⟩
  · rintro ⟨x, y, hx, hy, rfl⟩
    exact ⟨_, List.mem_map.mpr ⟨x, List.mem_range.mpr hx, rfl⟩,
      List.mem_map.mpr ⟨y, List.mem_range.mpr hy, rfl⟩⟩

/-- Rust's `as usize` is the identity on a cast natural number. -/
lemma ratToUsize_natCast (n : Nat) : ratToUsize (n : ℚ) = n := by
  rw [ratToUsize, Int.floor_natCast, Int.toNat_natCast]

/-- On the integer pixel `(x, y)` the `f32` index computation yields exactly
the row-major index `x + y * viewport_width`. -/
lemma index_f32_coords (r : Renderer) (x y : Nat) :
    r.index_f32 ⟨(x : ℚ), (y : ℚ)⟩ = x + y * r.options.viewport_width := by
  have hcast : ((x : ℚ) + (y : ℚ) * (r.options.viewport_width : ℚ)) =
      ((x + y * r.options.viewport_width : Nat) : ℚ) := by
    push_cast
    ring
  rw [Renderer.index_f32, hcast, ratToUsize_natCast]

/-- C10: when the buffer has its invariant length
`viewport_width * viewport_height`, every write of the render loop targets the
row-major index of a local pixel, which is strictly below the buffer length —
no access is out of bounds — and `render` re-establishes the length invariant. -/
theorem render_index_in_bounds (r : Renderer)
    (hlen : r.buffer.length =
      r.options.viewport_width * r.options.viewport_height) :
    (∀ p ∈ r.local_pixels, r.index_f32 p < r.buffer.length) ∧
    r.render.buffer.length =
      r.options.viewport_width * r.options.viewport_height := by
  constructor
  · intro p hp
    obtain ⟨x, y, hx, hy, rfl⟩ := (mem_local_pixels r p).mp hp
    rw [index_f32_coords, hlen]
    have hstep : (y + 1) * r.options.viewport_width ≤
        r.options.viewport_height * r.options.viewport_width :=
      Nat.mul_le_mul_right _ (Nat.succ_le_of_lt hy)
    rw [Nat.succ_mul] at hstep
    rw [Nat.mul_comm r.options.viewport_width r.options.viewport_height]
    omega
  · rw [render_buffer_length, hlen]

/-- Witness for C10 on a fresh 2×3 renderer. -/
theorem render_index_in_bounds_witness :
    (Renderer.new ⟨2, 3⟩).render.buffer.length =
      (Renderer.new ⟨2, 3⟩).options.viewport_width *
        (Renderer.new ⟨2, 3⟩).options.viewport_height :=
  (render_index_in_bounds (Renderer.new ⟨2, 3⟩) rfl).2

end AsciiRenderer
